import Mathlib

/-!
# jumper: request parameter store and response envelope

A shallow embedding of `request.go` and `response.go`.

* Go strings are Lean strings (sequences of code points): inputs are taken to be
  valid UTF-8 text.
* A call that panics at run time is `Run.panic`; a Go `(value, error)` result is a pair
  or an `Except`.
* Go maps are association lists read with `mapGet` and written with `mapSet`.
* `interface{}` values are the type `Val`.  A `float64` decoded from JSON is kept as its
  number literal (rounding is not modelled, the range check of the decoder is).
* Standard-library calls are modelled from the Go sources they call into:
  `encoding/json` (scanner, decoder, encoder), `strconv.ParseInt/ParseUint`,
  `strings.TrimSpace/Title/Contains`, `textproto.CanonicalMIMEHeaderKey`.
-/

namespace Jumper

/-! ## Running Go code -/

/-- Result of running a Go function body: it returns, or the goroutine panics. -/
inductive Run (α : Type) where
  | ret (a : α) : Run α
  | panic (msg : String) : Run α

/-- Sequencing: a panic aborts what follows. -/
def Run.bind {α β : Type} (x : Run α) (f : α → Run β) : Run β :=
  match x with
  | .ret a => f a
  | .panic m => .panic m

/-- Whether the run returned normally. -/
def Run.returns {α : Type} : Run α → Bool
  | .ret _ => true
  | .panic _ => false

/-! ## Go maps with string keys -/

/-- Map read `m[k]` with the comma-ok flag folded into the option. -/
def mapGet {β : Type} : List (String × β) → String → Option β
  | [], _ => none
  | (k', v) :: t, k => if k' = k then some v else mapGet t k

/-- Map write `m[k] = v`. -/
def mapSet {β : Type} : List (String × β) → String → β → List (String × β)
  | [], k, v => [(k, v)]
  | (k', v') :: t, k, v => if k' = k then (k, v) :: t else (k', v') :: mapSet t k v

/-- Keys of a map. -/
def mapKeys {β : Type} (m : List (String × β)) : List String := m.map Prod.fst

/-! ## Dynamic values -/

/-- Values held in an `interface{}` of the parameter store. -/
inductive Val where
  | nil : Val
  | str (s : String) : Val
  | num (lit : String) : Val
  | int (i : Int) : Val
  | bool (b : Bool) : Val
  | list (xs : List Val) : Val
  | map (kvs : List (String × Val)) : Val

/-- The type `Params`, a `map[string]interface{}`. -/
abbrev Params := List (String × Val)

/-! ## encoding/json: scanner and decoder -/

/-- Largest nesting depth the scanner accepts (`maxNestingDepth`, Go 1.15 and later). -/
def maxNestingDepth : Nat := 10000

/-- An open container on the scanner's parse stack. -/
inductive Frame where
  | arr (items : List Val) : Frame
  | obj (entries : Params) (key : Option String) : Frame

/-- The scanner's `step` function, with the token being read. -/
inductive Step where
  | beginValueOrEmpty : Step
  | beginValue : Step
  | beginStringOrEmpty : Step
  | beginString : Step
  | endValue : Step
  | endTop : Step
  | inString (acc : List Nat) : Step
  | inStringEsc (acc : List Nat) : Step
  | inStringEscU (acc : List Nat) (hex : List Nat) : Step
  | neg (acc : List Char) : Step
  | zero (acc : List Char) : Step
  | one (acc : List Char) : Step
  | dot (acc : List Char) : Step
  | dot0 (acc : List Char) : Step
  | e (acc : List Char) : Step
  | eSign (acc : List Char) : Step
  | e0 (acc : List Char) : Step
  | lit (rest : List Char) (v : Option Bool) : Step
  | error : Step

/-- Scanner and decoder state: next step, parse stack, the finished top-level value and
whether a number was out of the `float64` range (the decoder's saved error). -/
structure Scanner where
  step : Step
  stack : List Frame
  top : Option Val
  rangeErr : Bool

/-- JSON whitespace (`isSpace` of the scanner). -/
def isJSONSpace (c : Char) : Bool :=
  c = ' ' || c = '\t' || c = '\r' || c = '\n'

/-- Value of a hexadecimal digit, if it is one. -/
def hexVal (c : Char) : Option Nat :=
  let n := c.toNat
  if 48 ≤ n ∧ n ≤ 57 then some (n - 48)
  else if 97 ≤ n ∧ n ≤ 102 then some (n - 87)
  else if 65 ≤ n ∧ n ≤ 70 then some (n - 55)
  else none

/-- Turns the code units collected for a string literal into text: a high and a low
surrogate escape in a row form one code point, a lone surrogate becomes U+FFFD. -/
def unquoteUnits : List Nat → List Char
  | [] => []
  | [x] => if 0xD800 ≤ x ∧ x < 0xE000 then [Char.ofNat 0xFFFD] else [Char.ofNat x]
  | hi :: lo :: rest =>
    if 0xD800 ≤ hi ∧ hi < 0xE000 then
      if hi < 0xDC00 ∧ 0xDC00 ≤ lo ∧ lo < 0xE000 then
        Char.ofNat (0x10000 + (hi - 0xD800) * 0x400 + (lo - 0xDC00)) :: unquoteUnits rest
      else Char.ofNat 0xFFFD :: unquoteUnits (lo :: rest)
    else Char.ofNat hi :: unquoteUnits (lo :: rest)

/-- Number read from a run of decimal digits. -/
def natOfDigits (ds : List Char) : Nat :=
  ds.foldl (fun n c => 10 * n + (c.toNat - 48)) 0

/-- Smallest magnitude that `strconv.ParseFloat(s, 64)` rounds to infinity. -/
def float64Overflow : Nat :=
  179769313486231580793728971405303415079934132710037826936173778980444968292764750946649017977587207096330286416692887910946555547851940402630657488671505820681908902000708383676273854845817711531764475730270069855571366959622842914819860834936475292719074168444365510704342711559699508093042880177904174497792

/-- Whether a JSON number literal converts to a `float64` without a range error
(`convertNumber`). -/
def numberFits (lit : List Char) : Bool :=
  let body := match lit with
    | '-' :: t => t
    | t => t
  let ip := body.takeWhile Char.isDigit
  let r1 := body.dropWhile Char.isDigit
  let fp := match r1 with
    | '.' :: t => t.takeWhile Char.isDigit
    | _ => []
  let r2 := match r1 with
    | '.' :: t => t.dropWhile Char.isDigit
    | t => t
  let eneg := match r2 with
    | _ :: '-' :: _ => true
    | _ => false
  let ed := match r2 with
    | _ :: '-' :: t => t
    | _ :: '+' :: t => t
    | _ :: t => t
    | [] => []
  let m := natOfDigits (ip ++ fp)
  let ex := natOfDigits ed
  if eneg then decide (m < float64Overflow * 10 ^ (ex + fp.length))
  else if fp.length ≤ ex then decide (m * 10 ^ (ex - fp.length) < float64Overflow)
  else decide (m < float64Overflow * 10 ^ (fp.length - ex))

/-- The value of a literal name: `null`, or a boolean. -/
def literalVal : Option Bool → Val
  | none => .nil
  | some b => .bool b

/-- Hands a finished value to the enclosing container, or ends the top-level value. -/
def Scanner.deliver (s : Scanner) (v : Val) : Scanner :=
  match s.stack with
  | [] => { s with step := .endTop, top := some v }
  | .arr items :: rest => { s with step := .endValue, stack := .arr (v :: items) :: rest }
  | .obj es (some k) :: rest =>
    { s with step := .endValue, stack := .obj (mapSet es k v) none :: rest }
  | .obj es none :: rest =>
    match v with
    | .str k => { s with step := .endValue, stack := .obj es (some k) :: rest }
    | _ => { s with step := .error }

/-- Finishes a number literal: out of range it decodes to nil and the error is saved. -/
def Scanner.deliverNumber (s : Scanner) (acc : List Char) : Scanner :=
  let lit := acc.reverse
  if numberFits lit then s.deliver (.num (String.mk lit))
  else ({ s with rangeErr := true } : Scanner).deliver .nil

/-- Opens a container (`pushParseState`). -/
def Scanner.push (s : Scanner) (f : Frame) (next : Step) : Scanner :=
  if s.stack.length + 1 ≤ maxNestingDepth then { s with step := next, stack := f :: s.stack }
  else { s with step := .error }

/-- The step `stateEndValue`. -/
def Scanner.endValue (s : Scanner) (c : Char) : Scanner :=
  match s.stack with
  | [] => if isJSONSpace c then { s with step := .endTop } else { s with step := .error }
  | .obj es (some k) :: rest =>
    if isJSONSpace c then { s with step := .endValue }
    else if c = ':' then { s with step := .beginValue, stack := .obj es (some k) :: rest }
    else { s with step := .error }
  | .obj es none :: rest =>
    if isJSONSpace c then { s with step := .endValue }
    else if c = ',' then { s with step := .beginString }
    else if c = '}' then ({ s with stack := rest } : Scanner).deliver (.map es)
    else { s with step := .error }
  | .arr items :: rest =>
    if isJSONSpace c then { s with step := .endValue }
    else if c = ',' then { s with step := .beginValue }
    else if c = ']' then ({ s with stack := rest } : Scanner).deliver (.list items.reverse)
    else { s with step := .error }

/-- The step `stateBeginString`. -/
def Scanner.beginString (s : Scanner) (c : Char) : Scanner :=
  if isJSONSpace c then s
  else if c = '"' then { s with step := .inString [] }
  else { s with step := .error }

/-- The step `stateBeginValue`. -/
def Scanner.beginValue (s : Scanner) (c : Char) : Scanner :=
  if isJSONSpace c then { s with step := .beginValue }
  else if c = '{' then s.push (.obj [] none) .beginStringOrEmpty
  else if c = '[' then s.push (.arr []) .beginValueOrEmpty
  else if c = '"' then { s with step := .inString [] }
  else if c = '-' then { s with step := .neg [c] }
  else if c = '0' then { s with step := .zero [c] }
  else if c = 't' then { s with step := .lit ['r', 'u', 'e'] (some true) }
  else if c = 'f' then { s with step := .lit ['a', 'l', 's', 'e'] (some false) }
  else if c = 'n' then { s with step := .lit ['u', 'l', 'l'] none }
  else if '1' ≤ c ∧ c ≤ '9' then { s with step := .one [c] }
  else { s with step := .error }

/-- One byte of input through the scanner (`s.step(s, c)`). -/
def Scanner.feed (s : Scanner) (c : Char) : Scanner :=
  match s.step with
  | .error => s
  | .endTop => if isJSONSpace c then s else { s with step := .error }
  | .endValue => s.endValue c
  | .beginValue => s.beginValue c
  | .beginValueOrEmpty =>
    if isJSONSpace c then s
    else if c = ']' then s.endValue c
    else s.beginValue c
  | .beginString => s.beginString c
  | .beginStringOrEmpty =>
    if isJSONSpace c then s
    else if c = '}' then s.endValue c
    else s.beginString c
  | .inString acc =>
    if c = '"' then s.deliver (.str (String.mk (unquoteUnits acc.reverse)))
    else if c = '\\' then { s with step := .inStringEsc acc }
    else if c.toNat < 0x20 then { s with step := .error }
    else { s with step := .inString (c.toNat :: acc) }
  | .inStringEsc acc =>
    if c = 'b' then { s with step := .inString (8 :: acc) }
    else if c = 'f' then { s with step := .inString (12 :: acc) }
    else if c = 'n' then { s with step := .inString (10 :: acc) }
    else if c = 'r' then { s with step := .inString (13 :: acc) }
    else if c = 't' then { s with step := .inString (9 :: acc) }
    else if c = '\\' ∨ c = '/' ∨ c = '"' then { s with step := .inString (c.toNat :: acc) }
    else if c = 'u' then { s with step := .inStringEscU acc [] }
    else { s with step := .error }
  | .inStringEscU acc hex =>
    match hexVal c with
    | none => { s with step := .error }
    | some d =>
      if hex.length = 3 then
        { s with step := .inString ((hex ++ [d]).foldl (fun n x => 16 * n + x) 0 :: acc) }
      else { s with step := .inStringEscU acc (hex ++ [d]) }
  | .neg acc =>
    if c = '0' then { s with step := .zero (c :: acc) }
    else if '1' ≤ c ∧ c ≤ '9' then { s with step := .one (c :: acc) }
    else { s with step := .error }
  | .one acc =>
    if '0' ≤ c ∧ c ≤ '9' then { s with step := .one (c :: acc) }
    else if c = '.' then { s with step := .dot (c :: acc) }
    else if c = 'e' ∨ c = 'E' then { s with step := .e (c :: acc) }
    else (s.deliverNumber acc).endValue c
  | .zero acc =>
    if c = '.' then { s with step := .dot (c :: acc) }
    else if c = 'e' ∨ c = 'E' then { s with step := .e (c :: acc) }
    else (s.deliverNumber acc).endValue c
  | .dot acc =>
    if '0' ≤ c ∧ c ≤ '9' then { s with step := .dot0 (c :: acc) }
    else { s with step := .error }
  | .dot0 acc =>
    if '0' ≤ c ∧ c ≤ '9' then { s with step := .dot0 (c :: acc) }
    else if c = 'e' ∨ c = 'E' then { s with step := .e (c :: acc) }
    else (s.deliverNumber acc).endValue c
  | .e acc =>
    if c = '+' ∨ c = '-' then { s with step := .eSign (c :: acc) }
    else if '0' ≤ c ∧ c ≤ '9' then { s with step := .e0 (c :: acc) }
    else { s with step := .error }
  | .eSign acc =>
    if '0' ≤ c ∧ c ≤ '9' then { s with step := .e0 (c :: acc) }
    else { s with step := .error }
  | .e0 acc =>
    if '0' ≤ c ∧ c ≤ '9' then { s with step := .e0 (c :: acc) }
    else (s.deliverNumber acc).endValue c
  | .lit rest v =>
    match rest with
    | [] => { s with step := .error }
    | x :: more =>
      if c = x then
        match more with
        | [] => s.deliver (literalVal v)
        | _ => { s with step := .lit more v }
      else { s with step := .error }

/-- The scanner before the first byte (`scan.reset`). -/
def Scanner.init : Scanner :=
  { step := .beginValue, stack := [], top := none, rangeErr := false }

/-- Result of scanning a whole document (`checkValid` followed by decoding into an
empty interface): the value and whether a number failed the range check; `none` on a
syntax error.  At the end of the input the scanner is fed one space (`scan.eof`). -/
def decodeDocument (data : String) : Option (Val × Bool) :=
  let s := (data.data ++ [' ']).foldl Scanner.feed Scanner.init
  match s.step, s.top with
  | .endTop, some v => some (v, s.rangeErr)
  | _, _ => none

/-- Model of `json.Unmarshal(data, &arr)` for `var arr []interface{}`: the error, or the
slice.  The literal `null` leaves the nil slice and reports no error. -/
def unmarshalSlice (data : String) : Except String (List Val) :=
  match decodeDocument data with
  | none => .error "invalid character"
  | some (_, true) => .error "cannot unmarshal number"
  | some (.list xs, false) => .ok xs
  | some (.nil, false) => .ok []
  | some (_, false) => .error "cannot unmarshal into Go value of type []interface \x7b\x7d"

/-- Model of `json.Unmarshal(data, &mp)` for `var mp map[string]interface{}`. -/
def unmarshalMap (data : String) : Except String Params :=
  match decodeDocument data with
  | none => .error "invalid character"
  | some (_, true) => .error "cannot unmarshal number"
  | some (.map kvs, false) => .ok kvs
  | some (.nil, false) => .ok []
  | some (_, false) => .error "cannot unmarshal into Go value of type map[string]interface \x7b\x7d"

/-- Reads the first JSON value of a stream (`Decoder.readValue`): scanning stops at the
byte that completes the value and what follows is left unread; at the end of the input
the scanner is fed one space. -/
def Scanner.readValue : Scanner → List Char → Scanner
  | s, [] => s.feed ' '
  | s, c :: rest =>
    let s' := s.feed c
    match s'.top, s'.step with
    | some _, _ => s'
    | none, .error => s'
    | none, _ => s'.readValue rest

/-- The first JSON value of a body as the stream decoder reads it: the value and whether
a number failed the range check; `none` when no value could be read. -/
def decodeStream (body : String) : Option (Val × Bool) :=
  let s := Scanner.init.readValue body.data
  match s.top with
  | some v => some (v, s.rangeErr)
  | none => none

/-- Model of `json.NewDecoder(body).Decode(&params)` for a non-nil `params`: the map
afterwards and the error.  An object is stored key by key into the existing map, a
number out of range stores nil and is reported at the end, `null` sets the map to nil,
and a syntax error or any other value leaves the map as it was. -/
def decodeParams (body : String) (params : Params) : Params × Option String :=
  match decodeStream body with
  | none => (params, some "invalid character")
  | some (.map kvs, false) => (kvs.foldl (fun p kv => mapSet p kv.1 kv.2) params, none)
  | some (.map kvs, true) =>
    (kvs.foldl (fun p kv => mapSet p kv.1 kv.2) params, some "cannot unmarshal number")
  | some (.nil, false) => ([], none)
  | some _ => (params, some "cannot unmarshal into Go value of type jumper.Params")

/-! ## request.go: value inference -/

/-- The function `identify`. -/
def identify (value : String) : Val :=
  match unmarshalSlice value, unmarshalMap value with
  | .ok arr, _ => .list arr
  | .error _, .ok mp => .map mp
  | .error _, .error _ => .str value

/-- The loop of `scan` over `values`, writing `list[k]` for `k` from `k` on: an index
at or past `len(list)` panics. -/
def scanLoop (list : List Val) (k : Nat) : List String → Run (List Val)
  | [] => .ret list
  | vs :: rest =>
    if k < list.length then scanLoop (list.set k (identify vs)) (k + 1) rest
    else .panic ("runtime error: index out of range [" ++ toString k ++ "] with length "
      ++ toString list.length)

/-- The function `scan`. -/
def scan (values : List String) : Run Val :=
  if values.length = 1 then
    match values with
    | v :: _ => .ret (identify v)
    | [] => .ret .nil
  else if values.length > 1 then
    (scanLoop [] 0 values).bind fun list => .ret (.list list)
  else .ret .nil

/-! ## strings, strconv, textproto -/

/-- The function `strings.Contains`. -/
def stringsContains (s substr : String) : Bool :=
  s.data.tails.any fun t => substr.data.isPrefixOf t

/-- The predicate `unicode.IsSpace`. -/
def unicodeIsSpace (c : Char) : Bool :=
  let n := c.toNat
  (9 ≤ n && n ≤ 13) || n = 0x20 || n = 0x85 || n = 0xA0 || n = 0x1680
    || (0x2000 ≤ n && n ≤ 0x200A) || n = 0x2028 || n = 0x2029 || n = 0x202F
    || n = 0x205F || n = 0x3000

/-- The function `strings.TrimSpace`. -/
def trimSpace (s : String) : String :=
  String.mk ((s.data.dropWhile unicodeIsSpace).reverse.dropWhile unicodeIsSpace).reverse

/-- Result of `strconv.ParseUint` or `strconv.ParseInt`: the value returned and whether
an error came with it. -/
structure Parsed (α : Type) where
  val : α
  err : Option String

/-- The digit loop of `strconv.ParseUint(s, 10, bitSize)`: `n` is the value so far. -/
def parseUintLoop (bitSize : Nat) (n : Nat) : List Char → Parsed Nat
  | [] => { val := n, err := none }
  | c :: rest =>
    if '0' ≤ c ∧ c ≤ '9' then
      if n ≥ (2 ^ 64 - 1) / 10 + 1 then
        { val := 2 ^ bitSize - 1, err := some "value out of range" }
      else
        let n1 := n * 10 + (c.toNat - 48)
        if n1 ≥ 2 ^ 64 ∨ n1 > 2 ^ bitSize - 1 then
          { val := 2 ^ bitSize - 1, err := some "value out of range" }
        else parseUintLoop bitSize n1 rest
    else { val := 0, err := some "invalid syntax" }

/-- The function `strconv.ParseUint(s, 10, bitSize)` for `0 < bitSize ≤ 64`. -/
def parseUint (s : String) (bitSize : Nat) : Parsed Nat :=
  if s = "" then { val := 0, err := some "invalid syntax" }
  else parseUintLoop bitSize 0 s.data

/-- The function `strconv.ParseInt(s, 10, bitSize)` for `0 < bitSize ≤ 64`. -/
def parseInt (s : String) (bitSize : Nat) : Parsed Int :=
  match s.data with
  | [] => { val := 0, err := some "invalid syntax" }
  | c :: rest =>
    let neg := decide (c = '-')
    let digits := if c = '+' ∨ c = '-' then rest else c :: rest
    let un := parseUint (String.mk digits) bitSize
    if un.err = some "invalid syntax" then { val := 0, err := un.err }
    else
      let cutoff := 2 ^ (bitSize - 1)
      if !neg ∧ un.val ≥ cutoff then
        { val := (cutoff : Int) - 1, err := some "value out of range" }
      else if neg ∧ un.val > cutoff then
        { val := -(cutoff : Int), err := some "value out of range" }
      else { val := if neg then -(un.val : Int) else (un.val : Int), err := none }

/-- The predicate `validHeaderFieldByte`: the token characters of RFC 7230. -/
def validHeaderFieldByte (c : Char) : Bool :=
  let n := c.toNat
  (48 ≤ n && n ≤ 57) || (65 ≤ n && n ≤ 90) || (97 ≤ n && n ≤ 122)
    || n = 33 || (35 ≤ n && n ≤ 39) || n = 42 || n = 43 || n = 45 || n = 46
    || n = 94 || n = 95 || n = 96 || n = 124 || n = 126

/-- The canonicalising loop of `canonicalMIMEHeaderKey`: upper case for the first letter
and after each dash, lower case elsewhere. -/
def canonLoop (upper : Bool) : List Char → List Char
  | [] => []
  | c :: rest =>
    let c' :=
      if upper ∧ 'a' ≤ c ∧ c ≤ 'z' then Char.ofNat (c.toNat - 32)
      else if !upper ∧ 'A' ≤ c ∧ c ≤ 'Z' then Char.ofNat (c.toNat + 32)
      else c
    c' :: canonLoop (decide (c' = '-')) rest

/-- The function `textproto.CanonicalMIMEHeaderKey`: a key holding a byte that is not a
header field byte is returned as it is. -/
def canonicalMIMEHeaderKey (s : String) : String :=
  if s.data.all validHeaderFieldByte then String.mk (canonLoop true s.data) else s

/-- The type `http.Header`, and `url.Values`: a map from a name to its values. -/
abbrev Values := List (String × List String)

/-- The method `http.Header.Get`: first value under the canonical form of the key. -/
def headerGet (h : Values) (key : String) : String :=
  match mapGet h (canonicalMIMEHeaderKey key) with
  | some (v :: _) => v
  | _ => ""

/-- ASCII part of `isSeparator` in package strings, with the Unicode classes for the
runes above U+007F taken from `letterOrDigit`. -/
def isSeparator (letterOrDigit : Char → Bool) (c : Char) : Bool :=
  let n := c.toNat
  if n ≤ 0x7F then
    !((48 ≤ n && n ≤ 57) || (97 ≤ n && n ≤ 122) || (65 ≤ n && n ≤ 90) || n = 95)
  else if letterOrDigit c then false
  else unicodeIsSpace c

/-- The loop of `strings.Title`: the rune after a separator is mapped to title case. -/
def titleLoop (letterOrDigit : Char → Bool) (toTitle : Char → Char) (prev : Char) :
    List Char → List Char
  | [] => []
  | c :: rest =>
    (if isSeparator letterOrDigit prev then toTitle c else c)
      :: titleLoop letterOrDigit toTitle c rest

/-! ## Library behaviour taken as given -/

/-- A `time.Time`. -/
structure Time where
  unixNano : Int
  zoneOffset : Int

/-- Standard-library behaviour the development does not define: the Unicode tables
behind `strings.Title` for runes above U+007F, `fmt.Sprintf("%v", v)` for a value that
is not a string, `time.Parse(time.RFC3339, s)`, and the conversions of a `float64`
(given by its literal) to `uint64` and `int64`. -/
structure Lib where
  toTitle : Char → Char
  letterOrDigit : Char → Bool
  sprintV : Val → String
  parseRFC3339 : String → Option Time
  floatToUint64 : String → Nat
  floatToInt64 : String → Int

/-- The function `unicode.ToTitle`: ASCII lower-case letters here, the tables of `lib`
above U+007F. -/
def Lib.unicodeToTitle (lib : Lib) (c : Char) : Char :=
  if c.toNat ≤ 0x7F then
    (if 'a' ≤ c ∧ c ≤ 'z' then Char.ofNat (c.toNat - 32) else c)
  else lib.toTitle c

/-- The function `strings.Title`. -/
def Lib.title (lib : Lib) (s : String) : String :=
  String.mk (titleLoop lib.letterOrDigit lib.unicodeToTitle ' ' s.data)

/-- The call `fmt.Sprintf("%v", v)`: a string prints as itself. -/
def Lib.sprintf (lib : Lib) : Val → String
  | .str s => s
  | v => lib.sprintV v

/-! ## request.go: the adapter -/

/-- A `multipart.FileHeader`; `content` is what `Open` yields, the part's bytes or an
I/O error. -/
structure FileHeader where
  Filename : String
  Size : Int
  content : Except String String

/-- Modelled from the spec: the type `File` (its declaration is not in the sources), a
handle wrapping the open upload stream `f` and its metadata `fh`, as `GetFile` builds
it. -/
structure File where
  f : Option String
  fh : FileHeader

/-- What an `interface{}` of the file store holds: nil, a `*multipart.FileHeader` or a
`[]*multipart.FileHeader`. -/
inductive FileEntry where
  | nil : FileEntry
  | one (fh : FileHeader) : FileEntry
  | many (fhs : List FileHeader) : FileEntry

/-- The incoming `*http.Request` as the adapter reads it.  `Query` is `r.URL.Query()`
and `QueryErr` tells whether the raw query is malformed (an error `Query` drops and
`ParseForm` returns); `FormBody` is what `ParseForm` gets from parsing the body as
URL-encoded form, `Multipart` what `ParseMultipartForm` yields (values and files);
`Host` and `Port` are what the helpers `getHost` and `getPort` return. -/
structure HttpRequest where
  Method : String
  Query : Values
  QueryErr : Bool
  Header : Values
  Body : String
  FormBody : Except String Values
  Multipart : Except String (Values × List (String × List FileHeader))
  Vars : List (String × String)
  Host : String
  Port : String

/-- The method `http.Request.ParseForm`, giving `r.PostForm` or the error: the body is
read for POST, PUT and PATCH only, and a malformed query string is an error too. -/
def HttpRequest.ParseForm (r : HttpRequest) : Except String Values :=
  let post : Except String Values :=
    if r.Method = "POST" ∨ r.Method = "PUT" ∨ r.Method = "PATCH" then r.FormBody else .ok []
  match post with
  | .error e => .error e
  | .ok f => if r.QueryErr then .error "invalid URL escape" else .ok f

/-- The type `Request`. -/
structure Request where
  r : HttpRequest
  segments : List (String × String)
  params : Params
  files : List (String × FileEntry)
  header : Values
  Method : String
  ClientIP : String
  ClientPort : String

/-- The loop `for k, v := range m { params[k] = scan(v) }`. -/
def scanInto : Values → Params → Run Params
  | [], params => .ret params
  | (k, v) :: rest, params => (scan v).bind fun x => scanInto rest (mapSet params k x)

/-- The function `scanFiles`. -/
def scanFiles (values : List FileHeader) : FileEntry :=
  if values.length = 1 then
    match values with
    | v :: _ => .one v
    | [] => .nil
  else if values.length > 1 then .many values
  else .nil

/-- The loop `for k, v := range r.MultipartForm.File { files[k] = scanFiles(v) }`. -/
def scanFilesInto (m : List (String × List FileHeader)) (files : List (String × FileEntry)) :
    List (String × FileEntry) :=
  m.foldl (fun fs kv => mapSet fs kv.1 (scanFiles kv.2)) files

/-- The function `PlugRequest`: the adapter and the status code written to the response
writer, if any. -/
def PlugRequest (r : HttpRequest) : Run (Request × Option Nat) :=
  let req : Request :=
    { r := r, segments := r.Vars, params := [], files := [], header := r.Header,
      Method := r.Method, ClientIP := r.Host, ClientPort := r.Port }
  (scanInto r.Query req.params).bind fun params =>
  let req := { req with params := params }
  if r.Method = "GET" ∨ r.Method = "PUT" ∨ r.Method = "POST" ∨ r.Method = "DELETE"
      ∨ r.Method = "PATCH" then
    let contentType := headerGet req.header "Content-Type"
    let contentType :=
      if stringsContains contentType "multipart/form-data" then "multipart/form-data"
      else contentType
    if contentType = "multipart/form-data" then
      if r.Method = "GET" then .ret (req, none)
      else
        match r.Multipart with
        | .error _ => .ret (req, some 400)
        | .ok (value, file) =>
          (scanInto value req.params).bind fun params =>
          .ret ({ req with params := params, files := scanFilesInto file req.files }, none)
    else if contentType = "application/x-www-form-urlencoded" then
      if r.Method = "GET" then .ret (req, none)
      else
        match r.ParseForm with
        | .error _ => .ret (req, some 400)
        | .ok postForm =>
          (scanInto postForm req.params).bind fun params =>
          .ret ({ req with params := params }, none)
    else if contentType = "application/json" then
      match decodeParams r.Body req.params with
      | (params, some _) => .ret ({ req with params := params }, some 500)
      | (params, none) => .ret ({ req with params := params }, none)
    else .ret (req, none)
  else .ret (req, none)

/-- The method `Header`. -/
def Request.Header (r : Request) (key : String) : String :=
  headerGet r.header key

/-- The method `Get`. -/
def Request.Get (lib : Lib) (r : Request) (key : String) : String :=
  match mapGet r.params key with
  | none => ""
  | some .nil => ""
  | some v => lib.sprintf v

/-- The method `GetAll`. -/
def Request.GetAll (r : Request) : Params :=
  r.params

/-- The method `GetSegment`. -/
def Request.GetSegment (r : Request) (key : String) : String :=
  match mapGet r.segments key with
  | some v => v
  | none => ""

/-- The method `GetArray` (the nil slice is the empty list). -/
def Request.GetArray (r : Request) (key : String) : List Val :=
  match mapGet r.params key with
  | some (.list v) => v
  | _ => []

/-- The method `GetMap` (the nil map is the empty map). -/
def Request.GetMap (r : Request) (key : String) : Params :=
  match mapGet r.params key with
  | some (.map v) => v
  | _ => []

/-- The method `GetFile`: the file and the error. -/
def Request.GetFile (r : Request) (key : String) : Option File × Option String :=
  match mapGet r.files key with
  | some (.one fh) =>
    match fh.content with
    | .ok f => (some { f := some f, fh := fh }, none)
    | .error err => (some { f := none, fh := fh }, some err)
  | some (.many _) => (none, some "invalid file, maybe files instead")
  | _ => (none, some "no such file")

/-- The loop of `GetFiles` opening each header in turn. -/
def openFiles (files : List File) : List FileHeader → Option (List File) × Option String
  | [] => (some files, none)
  | v :: rest =>
    match v.content with
    | .error _ => (none, some "files error")
    | .ok f => openFiles (files ++ [{ f := some f, fh := v }]) rest

/-- The method `GetFiles`: the files and the error. -/
def Request.GetFiles (r : Request) (key : String) : Option (List File) × Option String :=
  match mapGet r.files key with
  | some (.many vs) => openFiles [] vs
  | some (.one _) => (none, some "invalid files, maybe file instead")
  | _ => (none, some "no such file")

/-- The method `GetUint64`, as a number below `2 ^ 64`. -/
def Request.GetUint64 (lib : Lib) (r : Request) (key : String) : Nat :=
  match mapGet r.params key with
  | some (.num f) => lib.floatToUint64 f
  | some (.int i) => (i % 2 ^ 64).toNat
  | some (.str s) => (parseUint s 32).val
  | some (.bool b) => if b then 1 else 0
  | _ => 0

/-- The method `GetInt64`. -/
def Request.GetInt64 (lib : Lib) (r : Request) (key : String) : Int :=
  match mapGet r.params key with
  | some (.num f) => lib.floatToInt64 f
  | some (.int i) => i
  | some (.str s) => (parseInt s 32).val
  | some (.bool b) => if b then 1 else 0
  | _ => 0

/-- The method `GetTime`: the time or the error; the type assertion
`r.params[key].(string)` panics on a value of another type. -/
def Request.GetTime (lib : Lib) (r : Request) (key : String) : Run (Except String Time) :=
  match mapGet r.params key with
  | none => .ret (.error "no time specified")
  | some .nil => .ret (.error "no time specified")
  | some (.str s) =>
    match lib.parseRFC3339 s with
    | none => .ret (.error "use RFC3339 format string for datetime")
    | some t => .ret (.ok t)
  | some _ => .panic "interface conversion: interface \x7b\x7d is not string"

/-- The method `GetTimeNE`. -/
def Request.GetTimeNE (lib : Lib) (r : Request) (key : String) : Run (Option Time) :=
  (r.GetTime lib key).bind fun res =>
    match res with
    | .ok t => .ret (some t)
    | .error _ => .ret none

/-- The method `has`. -/
def Request.has (r : Request) (key : String) : Bool :=
  match mapGet r.params key with
  | none => false
  | some _ => true

/-- The method `Has`. -/
def Request.Has (r : Request) (keys : List String) : Bool :=
  keys.foldl (fun found key => found && r.has key) true

/-- One round of the loop of `Filled`. -/
def Request.filledStep (lib : Lib) (r : Request) (found : Bool) (key : String) : Bool :=
  let found := found && r.has key
  match mapGet r.params key with
  | some (.str _) => found && decide (trimSpace (r.Get lib key) ≠ "")
  | some (.list xs) => found && decide (xs.length > 0)
  | some .nil => false
  | none => false
  | some _ => found

/-- The method `Filled`. -/
def Request.Filled (lib : Lib) (r : Request) (keys : List String) : Bool :=
  keys.foldl (r.filledStep lib) true

/-- The method `hasHeader`. -/
def Request.hasHeader (lib : Lib) (r : Request) (key : String) : Bool :=
  match mapGet r.header (lib.title key) with
  | none => false
  | some _ => true

/-- The method `HasHeader`. -/
def Request.HasHeader (lib : Lib) (r : Request) (keys : List String) : Bool :=
  keys.foldl (fun found key => found && r.hasHeader lib key) true

/-- The method `HeaderFilled`. -/
def Request.HeaderFilled (lib : Lib) (r : Request) (keys : List String) : Bool :=
  keys.foldl (fun found key => found && r.hasHeader lib key && decide (r.Header key ≠ "")) true

/-- The method `HasFile`. -/
def Request.HasFile (r : Request) (keys : List String) : Bool :=
  keys.foldl
    (fun found key => found && (match mapGet r.files key with
      | none => false
      | some .nil => false
      | some _ => true))
    true

/-! ## response.go: the envelope -/

/-- Lower-case hexadecimal digit. -/
def hexDigit (n : Nat) : Char :=
  if n < 10 then Char.ofNat (48 + n) else Char.ofNat (87 + n)

/-- How the JSON encoder writes one rune of a string with HTML escaping on, the default
of `json.NewEncoder` (control characters other than newline, carriage return and tab are
written in the six-character form, as the releases before Go 1.22 do for all of them). -/
def escapeRune (c : Char) : List Char :=
  let n := c.toNat
  if c = '"' ∨ c = '\\' then ['\\', c]
  else if c = '\n' then ['\\', 'n']
  else if c = '\r' then ['\\', 'r']
  else if c = '\t' then ['\\', 't']
  else if n < 0x20 ∨ c = '<' ∨ c = '>' ∨ c = '&' then
    ['\\', 'u', '0', '0', hexDigit (n / 16), hexDigit (n % 16)]
  else if n = 0x2028 then ['\\', 'u', '2', '0', '2', '8']
  else if n = 0x2029 then ['\\', 'u', '2', '0', '2', '9']
  else [c]

/-- JSON encoding of a Go string. -/
def quoteString (s : String) : String :=
  String.mk ('"' :: (s.data.map escapeRune).flatten ++ ['"'])

/-- Decimal text of an `int` (`strconv.AppendInt`). -/
def itoa (i : Int) : String :=
  match i with
  | .ofNat n => Nat.repr n
  | .negSucc n => "-" ++ Nat.repr (n + 1)

/-- The `http.ResponseWriter`, as an in-memory record of what was set and written. -/
structure ResponseWriter where
  header : Values
  status : Option Nat
  body : String

/-- The type `Response`; `Data` is `none` for a nil payload. -/
structure Response (δ : Type) where
  w : ResponseWriter
  Status : Int
  StatusNumber : String
  StatusCode : String
  StatusMessage : String
  Data : Option δ

/-- The function `PlugResponse`. -/
def PlugResponse (δ : Type) (w : ResponseWriter) : Response δ :=
  { w := w, Status := 0, StatusNumber := "", StatusCode := "", StatusMessage := "",
    Data := none }

/-- JSON encoding of the payload: `null` for nil, what `marshal` gives otherwise. -/
def marshalData {δ : Type} (marshal : δ → Except String String) :
    Option δ → Except String String
  | none => .ok "null"
  | some d => marshal d

/-- JSON encoding of the envelope (`json.Marshal` of the struct): the exported fields in
declaration order under their tags. -/
def Response.marshal {δ : Type} (marshal : δ → Except String String) (r : Response δ) :
    Except String String :=
  match marshalData marshal r.Data with
  | .error e => .error e
  | .ok data =>
    .ok ("\x7b\"status\":" ++ itoa r.Status
      ++ ",\"status_number\":" ++ quoteString r.StatusNumber
      ++ ",\"status_code\":" ++ quoteString r.StatusCode
      ++ ",\"status_message\":" ++ quoteString r.StatusMessage
      ++ ",\"data\":" ++ data ++ "\x7d")

/-- The call `json.NewEncoder(r.w).Encode(r)`: the encoding followed by a newline is
written in one piece; when encoding fails nothing is written. -/
def Response.encode {δ : Type} (marshal : δ → Except String String) (r : Response δ) :
    Response δ × Option String :=
  match r.marshal marshal with
  | .error e => (r, some e)
  | .ok text => ({ r with w := { r.w with body := r.w.body ++ text ++ "\n" } }, none)

/-- The method `Reply`: the envelope afterwards and the error returned. -/
def Response.Reply {δ : Type} (marshal : δ → Except String String) (r : Response δ)
    (status : Int) (number code message : String) (data : Option δ) :
    Response δ × Option String :=
  let r := { r with w := { r.w with header := mapSet r.w.header "Content-Type" ["application/json"] } }
  let r := { r with Status := status }
  let r := { r with StatusNumber := number }
  let r := { r with StatusCode := code }
  let r := { r with StatusMessage := message }
  let r := { r with Data := data }
  r.encode marshal

/-- The method `ReplyFailed`. -/
def Response.ReplyFailed {δ : Type} (marshal : δ → Except String String) (r : Response δ)
    (number code message : String) (data : Option δ) : Response δ × Option String :=
  r.Reply marshal 0 number code message data

/-- The method `ReplySuccess`. -/
def Response.ReplySuccess {δ : Type} (marshal : δ → Except String String) (r : Response δ)
    (number code message : String) (data : Option δ) : Response δ × Option String :=
  r.Reply marshal 1 number code message data

/-- The value a run returned, if it returned. -/
def Run.value? {α : Type} : Run α → Option α
  | .ret a => some a
  | .panic _ => none

/-! ## Invariant of the scanner -/

/-- A frame whose object entries have distinct keys. -/
def Frame.wf : Frame → Prop
  | .arr _ => True
  | .obj es _ => (mapKeys es).Nodup

/-- A value that, when it is an object, has distinct keys. -/
def Val.wfTop : Val → Prop
  | .map es => (mapKeys es).Nodup
  | _ => True

/-- Scanner invariant: every open object and the finished value have distinct keys. -/
def Scanner.wf (s : Scanner) : Prop :=
  (∀ f ∈ s.stack, f.wf) ∧ (∀ v, s.top = some v → v.wfTop)

/-! ## Example requests -/

/-- A GET request with a JSON body: `GET /?a=1`, `Content-Type: application/json`, body
`{"b":"2"}`. -/
def getJSONRequest : HttpRequest :=
  { Method := "GET", Query := [("a", ["1"])], QueryErr := false,
    Header := [("Content-Type", ["application/json"])], Body := "\x7b\"b\":\"2\"\x7d",
    FormBody := .ok [("\x7b\"b\":\"2\"\x7d", [""])],
    Multipart := .error "request Content-Type isn't multipart/form-data",
    Vars := [], Host := "127.0.0.1", Port := "52000" }

/-- A GET request carrying a form body: `GET /?ids=[1,2,3]&name=Ann` with content type
`application/x-www-form-urlencoded` and body `x=1`. -/
def getFormRequest : HttpRequest :=
  { Method := "GET", Query := [("ids", ["[1,2,3]"]), ("name", ["Ann"])], QueryErr := false,
    Header := [("Content-Type", ["application/x-www-form-urlencoded"])], Body := "x=1",
    FormBody := .ok [("x", ["1"])],
    Multipart := .error "request Content-Type isn't multipart/form-data",
    Vars := [], Host := "127.0.0.1", Port := "52000" }

/-- A DELETE request with a form body: `DELETE /?a=1`, content type
`application/x-www-form-urlencoded`, body `b=2`. -/
def deleteFormRequest : HttpRequest :=
  { Method := "DELETE", Query := [("a", ["1"])], QueryErr := false,
    Header := [("Content-Type", ["application/x-www-form-urlencoded"])], Body := "b=2",
    FormBody := .ok [("b", ["2"])],
    Multipart := .error "request Content-Type isn't multipart/form-data",
    Vars := [], Host := "127.0.0.1", Port := "52000" }

/-- A DELETE request with a JSON body: `DELETE /?a=1`, content type `application/json`,
body `{"b":"2"}`. -/
def deleteJSONRequest : HttpRequest :=
  { Method := "DELETE", Query := [("a", ["1"])], QueryErr := false,
    Header := [("Content-Type", ["application/json"])], Body := "\x7b\"b\":\"2\"\x7d",
    FormBody := .ok [("\x7b\"b\":\"2\"\x7d", [""])],
    Multipart := .error "request Content-Type isn't multipart/form-data",
    Vars := [], Host := "127.0.0.1", Port := "52000" }

/-- A form post: `POST /?id=1&q=x`, content type `application/x-www-form-urlencoded`,
body `id=7&tags=["a","b"]`. -/
def postFormRequest : HttpRequest :=
  { Method := "POST", Query := [("id", ["1"]), ("q", ["x"])], QueryErr := false,
    Header := [("Content-Type", ["application/x-www-form-urlencoded"])],
    Body := "id=7&tags=[\"a\",\"b\"]",
    FormBody := .ok [("id", ["7"]), ("tags", ["[\"a\",\"b\"]"])],
    Multipart := .error "request Content-Type isn't multipart/form-data",
    Vars := [], Host := "127.0.0.1", Port := "52000" }

/-- A JSON post: `POST /?id=1&q=x`, content type `application/json`, body
`{"id": 5, "tags": ["a","b"]}`. -/
def postJSONRequest : HttpRequest :=
  { Method := "POST", Query := [("id", ["1"]), ("q", ["x"])], QueryErr := false,
    Header := [("Content-Type", ["application/json"])],
    Body := "\x7b\"id\": 5, \"tags\": [\"a\",\"b\"]\x7d",
    FormBody := .ok [("\x7b\"id\": 5, \"tags\": [\"a\",\"b\"]\x7d", [""])],
    Multipart := .error "request Content-Type isn't multipart/form-data",
    Vars := [], Host := "127.0.0.1", Port := "52000" }

/-- A query with decimal integers:
`GET /?n=4294967296&m=2147483648&big=99999999999999999999&ok=42`. -/
def numbersRequest : HttpRequest :=
  { Method := "GET",
    Query := [("n", ["4294967296"]), ("m", ["2147483648"]),
      ("big", ["99999999999999999999"]), ("ok", ["42"])],
    QueryErr := false, Header := [], Body := "", FormBody := .ok [],
    Multipart := .error "request Content-Type isn't multipart/form-data",
    Vars := [], Host := "127.0.0.1", Port := "52000" }

/-- A JSON post with a number under the key `t`: body `{"t": 5}`. -/
def timeRequest : HttpRequest :=
  { Method := "POST", Query := [], QueryErr := false,
    Header := [("Content-Type", ["application/json"])], Body := "\x7b\"t\": 5\x7d",
    FormBody := .ok [("\x7b\"t\": 5\x7d", [""])],
    Multipart := .error "request Content-Type isn't multipart/form-data",
    Vars := [], Host := "127.0.0.1", Port := "52000" }

/-- A request with the headers `Content-Type: text/plain` and `X-Api-Key: k`. -/
def headersRequest : HttpRequest :=
  { Method := "GET", Query := [], QueryErr := false,
    Header := [("Content-Type", ["text/plain"]), ("X-Api-Key", ["k"])], Body := "",
    FormBody := .ok [],
    Multipart := .error "request Content-Type isn't multipart/form-data",
    Vars := [], Host := "127.0.0.1", Port := "52000" }

/-- Library behaviour used to run the getters on examples: no rune above U+007F is a
letter or changes case, other values print as `?`, and no string parses as a time. -/
def plainLib : Lib :=
  { toTitle := fun c => c, letterOrDigit := fun _ => false, sprintV := fun _ => "?",
    parseRFC3339 := fun _ => none, floatToUint64 := fun _ => 0, floatToInt64 := fun _ => 0 }

/-- An adapter whose store holds a name, a blank string and an empty list. -/
def blankStore : Request :=
  { r := getFormRequest, segments := [], files := [], header := [], Method := "GET",
    ClientIP := "127.0.0.1", ClientPort := "52000",
    params := [("name", .str "Ann"), ("blank", .str " \t "), ("ids", .list [])] }

/-- A multipart post with one part under `avatar` and two under `docs`. -/
def uploadRequest : HttpRequest :=
  { Method := "POST", Query := [], QueryErr := false,
    Header := [("Content-Type", ["multipart/form-data; boundary=xyz"])], Body := "",
    FormBody := .ok [],
    Multipart := .ok ([("title", ["report"])],
      [("avatar", [{ Filename := "me.png", Size := 3, content := .ok "png" }]),
       ("docs", [{ Filename := "a.txt", Size := 1, content := .ok "a" },
                 { Filename := "b.txt", Size := 1, content := .ok "b" }])]),
    Vars := [], Host := "127.0.0.1", Port := "52000" }

/-- The adapter built from `uploadRequest`. -/
def uploadStore : Request :=
  { r := uploadRequest, segments := [], header := uploadRequest.Header, Method := "POST",
    ClientIP := "127.0.0.1", ClientPort := "52000", params := [("title", .str "report")],
    files := [("avatar", .one { Filename := "me.png", Size := 3, content := .ok "png" }),
      ("docs", .many [{ Filename := "a.txt", Size := 1, content := .ok "a" },
                      { Filename := "b.txt", Size := 1, content := .ok "b" }])] }

/-! ## Lemmas on maps -/

theorem mapGet_mapSet {β : Type} (m : List (String × β)) (k k' : String) (v : β) :
    mapGet (mapSet m k v) k' = if k = k' then some v else mapGet m k' := by
  induction m with
  | nil => simp [mapSet, mapGet]
  | cons hd t ih =>
    obtain ⟨a, b⟩ := hd
    by_cases h : a = k
    · subst h
      by_cases h' : a = k' <;> simp [mapSet, mapGet, h']
    · by_cases h' : a = k'
      · subst h'
        simp [mapSet, mapGet, h, Ne.symm h]
      · simp [mapSet, mapGet, h, h', ih]

theorem mapKeys_mapSet_nodup {β : Type} (m : List (String × β)) (k : String) (v : β)
    (h : (mapKeys m).Nodup) : (mapKeys (mapSet m k v)).Nodup := by
  have key : ∀ (m : List (String × β)), (∀ x, x ∈ mapKeys (mapSet m k v) → x = k ∨ x ∈ mapKeys m) := by
    intro m
    induction m with
    | nil => intro x; simp [mapSet, mapKeys]
    | cons hd t ih =>
      obtain ⟨a, b⟩ := hd
      intro x hx
      by_cases ha : a = k
      · simp [mapSet, mapKeys, ha] at hx ⊢
        tauto
      · simp only [mapSet, ha, if_false, mapKeys, List.map_cons, List.mem_cons] at hx ⊢
        rcases hx with hx | hx
        · exact Or.inr (Or.inl hx)
        · rcases ih x hx with h1 | h1
          · exact Or.inl h1
          · exact Or.inr (Or.inr h1)
  induction m with
  | nil => simp [mapSet, mapKeys]
  | cons hd t ih =>
    obtain ⟨a, b⟩ := hd
    simp only [mapKeys, List.map_cons, List.nodup_cons] at h
    by_cases ha : a = k
    · simp only [mapSet, ha, if_true, mapKeys, List.map_cons, List.nodup_cons]
      exact ⟨ha ▸ h.1, h.2⟩
    · simp only [mapSet, ha, if_false, mapKeys, List.map_cons, List.nodup_cons]
      refine ⟨?_, ih h.2⟩
      intro hmem
      rcases key t a hmem with h1 | h1
      · exact ha h1
      · exact h.1 h1

theorem mapGet_eq_none_of_not_mem {β : Type} (m : List (String × β)) (k : String)
    (h : k ∉ mapKeys m) : mapGet m k = none := by
  induction m with
  | nil => rfl
  | cons hd t ih =>
    obtain ⟨a, b⟩ := hd
    simp only [mapKeys, List.map_cons, List.mem_cons, not_or] at h
    simp only [mapGet, Ne.symm h.1, if_false]
    exact ih h.2

/-- Storing every entry of a map `m` (through `f`) into `p`: a key of `m` reads the image
of its value, any other key reads what `p` had. -/
theorem mapGet_foldl_mapSet {β γ : Type} (f : β → γ) (m : List (String × β))
    (h : (mapKeys m).Nodup) (p : List (String × γ)) (k : String) :
    mapGet (m.foldl (fun q kv => mapSet q kv.1 (f kv.2)) p) k =
      match mapGet m k with
      | some b => some (f b)
      | none => mapGet p k := by
  induction m generalizing p with
  | nil => simp [mapGet]
  | cons hd t ih =>
    obtain ⟨a, b⟩ := hd
    simp only [mapKeys, List.map_cons, List.nodup_cons] at h
    simp only [List.foldl_cons]
    rw [ih h.2]
    by_cases ha : a = k
    · subst ha
      have : mapGet t a = none := mapGet_eq_none_of_not_mem t a h.1
      simp [mapGet, this, mapGet_mapSet]
    · simp [mapGet, ha, mapGet_mapSet]

theorem Scanner.wf_init : Scanner.init.wf := by
  constructor
  · intro f hf
    simp [Scanner.init] at hf
  · intro v hv
    simp [Scanner.init] at hv

theorem Scanner.wf_deliver (s : Scanner) (v : Val) (h : s.wf) (hv : v.wfTop) :
    (s.deliver v).wf := by
  obtain ⟨hs, ht⟩ := h
  unfold Scanner.deliver
  split
  · refine ⟨?_, ?_⟩
    · intro f hf
      exact hs f hf
    · intro w hw
      simp only [Option.some.injEq] at hw
      exact hw ▸ hv
  · rename_i items rest hstack
    refine ⟨?_, ht⟩
    intro f hf
    simp only [List.mem_cons] at hf
    rcases hf with hf | hf
    · subst hf
      trivial
    · exact hs f (by rw [hstack]; exact List.mem_cons_of_mem _ hf)
  · rename_i es k rest hstack
    refine ⟨?_, ht⟩
    intro f hf
    simp only [List.mem_cons] at hf
    rcases hf with hf | hf
    · subst hf
      exact mapKeys_mapSet_nodup es k v (hs (.obj es (some k)) (by rw [hstack]; exact List.mem_cons_self _ _))
    · exact hs f (by rw [hstack]; exact List.mem_cons_of_mem _ hf)
  · rename_i es rest hstack
    split
    · rename_i k
      refine ⟨?_, ht⟩
      intro f hf
      simp only [List.mem_cons] at hf
      rcases hf with hf | hf
      · subst hf
        exact hs (.obj es none) (by rw [hstack]; exact List.mem_cons_self _ _)
      · exact hs f (by rw [hstack]; exact List.mem_cons_of_mem _ hf)
    · exact ⟨hs, ht⟩

theorem Scanner.wf_same (s t : Scanner) (hs : t.stack = s.stack) (ht : t.top = s.top)
    (h : s.wf) : t.wf := by
  unfold Scanner.wf at *
  rw [hs, ht]
  exact h

theorem literalVal_wfTop (b : Option Bool) : (literalVal b).wfTop := by
  cases b <;> trivial

theorem Scanner.wf_deliverNumber (s : Scanner) (acc : List Char) (h : s.wf) :
    (s.deliverNumber acc).wf := by
  simp only [Scanner.deliverNumber]
  split
  · exact Scanner.wf_deliver s _ h trivial
  · exact Scanner.wf_deliver _ _ (Scanner.wf_same s _ rfl rfl h) trivial

theorem Scanner.wf_push (s : Scanner) (f : Frame) (next : Step) (h : s.wf) (hf : f.wf) :
    (s.push f next).wf := by
  unfold Scanner.push
  split
  · refine ⟨?_, h.2⟩
    intro g hg
    simp only [List.mem_cons] at hg
    rcases hg with hg | hg
    · exact hg ▸ hf
    · exact h.1 g hg
  · exact h

theorem Scanner.wf_pop (s : Scanner) (f : Frame) (rest : List Frame)
    (hstack : s.stack = f :: rest) (h : s.wf) : ({ s with stack := rest } : Scanner).wf :=
  ⟨fun g hg => h.1 g (by rw [hstack]; exact List.mem_cons_of_mem _ hg), h.2⟩

theorem Scanner.wf_endValue (s : Scanner) (c : Char) (h : s.wf) : (s.endValue c).wf := by
  unfold Scanner.endValue
  split
  · split <;> exact h
  · rename_i es k rest hstack
    split
    · exact h
    · split
      · refine ⟨?_, h.2⟩
        intro g hg
        exact h.1 g (by rw [hstack]; exact hg)
      · exact h
  · rename_i es rest hstack
    split
    · exact h
    · split
      · exact h
      · split
        · exact Scanner.wf_deliver _ _ (Scanner.wf_pop s _ rest hstack h)
            (h.1 (.obj es none) (by rw [hstack]; exact List.mem_cons_self _ _))
        · exact h
  · rename_i items rest hstack
    split
    · exact h
    · split
      · exact h
      · split
        · exact Scanner.wf_deliver _ _ (Scanner.wf_pop s _ rest hstack h) trivial
        · exact h

theorem Scanner.wf_beginString (s : Scanner) (c : Char) (h : s.wf) :
    (s.beginString c).wf := by
  unfold Scanner.beginString
  repeat' split
  all_goals exact Scanner.wf_same s _ rfl rfl h

theorem Scanner.wf_beginValue (s : Scanner) (c : Char) (h : s.wf) :
    (s.beginValue c).wf := by
  unfold Scanner.beginValue
  repeat' split
  all_goals first
    | exact Scanner.wf_same s _ rfl rfl h
    | exact Scanner.wf_push s (.obj [] none) .beginStringOrEmpty h List.nodup_nil
    | exact Scanner.wf_push s (.arr []) .beginValueOrEmpty h trivial

theorem Scanner.wf_feed (s : Scanner) (c : Char) (h : s.wf) : (s.feed c).wf := by
  unfold Scanner.feed
  repeat' split
  all_goals first
    | exact Scanner.wf_same s _ rfl rfl h
    | exact Scanner.wf_endValue s c h
    | exact Scanner.wf_beginValue s c h
    | exact Scanner.wf_beginString s c h
    | exact Scanner.wf_deliver s _ h trivial
    | exact Scanner.wf_deliver s _ h (literalVal_wfTop _)
    | exact Scanner.wf_endValue _ c (Scanner.wf_deliverNumber s _ h)

theorem Scanner.wf_readValue (s : Scanner) (cs : List Char) (h : s.wf) :
    (s.readValue cs).wf := by
  induction cs generalizing s with
  | nil => exact Scanner.wf_feed s _ h
  | cons c rest ih =>
    simp only [Scanner.readValue]
    split
    · exact Scanner.wf_feed s c h
    · exact Scanner.wf_feed s c h
    · exact ih _ (Scanner.wf_feed s c h)

/-- An object read from a body has no repeated key. -/
theorem decodeStream_nodup (body : String) (kvs : Params) (b : Bool)
    (h : decodeStream body = some (.map kvs, b)) : (mapKeys kvs).Nodup := by
  have hwf := Scanner.wf_readValue Scanner.init body.data Scanner.wf_init
  unfold decodeStream at h
  simp only at h
  split at h
  · rename_i v hv
    simp only [Option.some.injEq, Prod.mk.injEq] at h
    have := hwf.2 v hv
    rw [h.1] at this
    exact this
  · exact Option.noConfusion h

/-! ## Value inference -/

/-- What `identify` does with JSON scalars and with text that is not JSON. -/
theorem identify_scalars :
    identify "5" = .str "5" ∧ identify "true" = .str "true"
      ∧ identify "\"x\"" = .str "\"x\"" ∧ identify "Ann" = .str "Ann"
      ∧ identify "[1,2,3]" = .list [.num "1", .num "2", .num "3"]
      ∧ identify "\x7b\"id\":[1]\x7d" = .map [("id", .list [.num "1"])] :=
  ⟨rfl, rfl, rfl, rfl, rfl, rfl⟩

/-- C1, as stated, fails on the raw string `null`: it is neither a JSON array nor a JSON
object, yet the stored value is the nil list and not the string `null`. -/
theorem identify_null_is_list :
    decodeDocument "null" = some (.nil, false) ∧ identify "null" = .list []
      ∧ scan ["null"] = .ret (.list []) ∧ identify "null" ≠ .str "null" :=
  ⟨rfl, rfl, rfl, by
    have h : identify "null" = .list [] := rfl
    rw [h]
    exact fun h' => Val.noConfusion h'⟩

/-- C1 (amended): a single raw value is stored unwrapped, `scan [s] = identify s`; when
the decoder accepts `s` as a JSON array the stored value is the decoded list, when `s`
is the JSON literal `null` it is the nil list, when the decoder accepts `s` as a JSON
object it is the decoded mapping, and in every other case it is the string `s`
itself. -/
theorem identify_by_document (s : String) :
    scan [s] = .ret (identify s)
      ∧ (∀ xs, decodeDocument s = some (.list xs, false) → identify s = .list xs)
      ∧ (decodeDocument s = some (.nil, false) → identify s = .list [])
      ∧ (∀ m, decodeDocument s = some (.map m, false) → identify s = .map m)
      ∧ ((∀ xs, decodeDocument s ≠ some (.list xs, false))
          → decodeDocument s ≠ some (.nil, false)
          → (∀ m, decodeDocument s ≠ some (.map m, false)) → identify s = .str s) := by
  refine ⟨by simp [scan], ?_, ?_, ?_, ?_⟩
  · intro xs h
    simp [identify, unmarshalSlice, h]
  · intro h
    simp [identify, unmarshalSlice, h]
  · intro m h
    simp [identify, unmarshalSlice, unmarshalMap, h]
  · intro h1 h2 h3
    cases h : decodeDocument s with
    | none => simp [identify, unmarshalSlice, unmarshalMap, h]
    | some p =>
      obtain ⟨v, b⟩ := p
      cases b with
      | true => simp [identify, unmarshalSlice, unmarshalMap, h]
      | false =>
        cases v with
        | list xs => exact absurd h (h1 xs)
        | nil => exact absurd h h2
        | map m => exact absurd h (h3 m)
        | str _ => simp [identify, unmarshalSlice, unmarshalMap, h]
        | num _ => simp [identify, unmarshalSlice, unmarshalMap, h]
        | int _ => simp [identify, unmarshalSlice, unmarshalMap, h]
        | bool _ => simp [identify, unmarshalSlice, unmarshalMap, h]

/-- Instance of the amended C1 at `[1,2,3]`, `null`, an object and `Ann`. -/
theorem identify_by_document_witness :
    identify "[1,2,3]" = .list [.num "1", .num "2", .num "3"]
      ∧ identify "null" = .list []
      ∧ identify "\x7b\"a\":\"b\"\x7d" = .map [("a", .str "b")]
      ∧ identify "Ann" = .str "Ann" :=
  ⟨(identify_by_document "[1,2,3]").2.1 _ rfl,
   (identify_by_document "null").2.2.1 rfl,
   (identify_by_document "\x7b\"a\":\"b\"\x7d").2.2.2.1 _ rfl,
   (identify_by_document "Ann").2.2.2.2
     (fun _ h => Option.noConfusion h) (fun h => Option.noConfusion h)
     (fun _ h => Option.noConfusion h)⟩

/-- C2 fails on the code: for two or more raw values `scan` panics at its first
assignment `list[0] = ...` into the empty list, whatever the values are. -/
theorem scan_repeated_panics (v w : String) (rest : List String) :
    scan (v :: w :: rest) = .panic "runtime error: index out of range [0] with length 0" := by
  simp [scan, scanLoop, Run.bind]
  rfl

/-! ## Building the parameter store -/

theorem scan_short (vs : List String) (h : vs.length ≤ 1) : ∃ x, scan vs = .ret x := by
  match vs, h with
  | [], _ => exact ⟨.nil, rfl⟩
  | [v], _ => exact ⟨identify v, by simp [scan]⟩
  | _ :: _ :: _, h => simp at h

/-- When no key carries more than one value the loop over a map of raw values returns,
and the store then reads, for a key of the map, `scan` of its values and, for any other
key, what it read before. -/
theorem scanInto_short (vals : Values) (hk : (mapKeys vals).Nodup)
    (hv : ∀ kv ∈ vals, kv.2.length ≤ 1) (p : Params) :
    ∃ q, scanInto vals p = .ret q ∧ ∀ k, Option.map Run.ret (mapGet q k) =
      match mapGet vals k with
      | some vs => some (scan vs)
      | none => Option.map Run.ret (mapGet p k) := by
  induction vals generalizing p with
  | nil => exact ⟨p, rfl, fun k => by simp [mapGet]⟩
  | cons hd t ih =>
    obtain ⟨a, vs⟩ := hd
    simp only [mapKeys, List.map_cons, List.nodup_cons] at hk
    obtain ⟨x, hx⟩ := scan_short vs (hv (a, vs) (List.mem_cons_self _ _))
    obtain ⟨q, hq, hget⟩ := ih hk.2 (fun kv h => hv kv (List.mem_cons_of_mem _ h)) (mapSet p a x)
    refine ⟨q, by simp [scanInto, hx, Run.bind, hq], ?_⟩
    intro k
    rw [hget k]
    by_cases ha : a = k
    · subst ha
      have : mapGet t a = none := mapGet_eq_none_of_not_mem t a hk.1
      simp [mapGet, this, mapGet_mapSet, hx]
    · simp [mapGet, ha, mapGet_mapSet]

/-- C3, as stated, fails on a GET request whose content type is `application/json`: the
key `b` of the body is in the store though the query string has no such key. -/
theorem PlugRequest_get_json_reads_body :
    getJSONRequest.Method = "GET" ∧ mapGet getJSONRequest.Query "b" = none
      ∧ (PlugRequest getJSONRequest).value?.map (fun p => (p.1.params, p.2))
          = some ([("a", .str "1"), ("b", .str "2")], none) :=
  ⟨rfl, rfl, rfl⟩

/-- C3 (amended): when no query key is repeated, a request whose method is none of PUT,
POST, DELETE, PATCH, and which is not a GET request with content type
`application/json`, gets a store holding exactly the query parameters, each key mapped
to `scan` of its values, with no file and no status written; a GET request with content
type `application/json` has its body decoded into the store on top of the query
parameters, as the body-bearing verbs have. -/
theorem PlugRequest_query_only (r : HttpRequest)
    (hk : (mapKeys r.Query).Nodup) (hv : ∀ kv ∈ r.Query, kv.2.length ≤ 1) :
    ((r.Method ≠ "PUT" ∧ r.Method ≠ "POST" ∧ r.Method ≠ "DELETE" ∧ r.Method ≠ "PATCH") →
      (r.Method = "GET" → headerGet r.Header "Content-Type" ≠ "application/json") →
        ∃ req, PlugRequest r = .ret (req, none) ∧ req.files = []
          ∧ ∀ k, Option.map Run.ret (mapGet req.params k) = Option.map scan (mapGet r.Query k))
    ∧ (r.Method = "GET" → headerGet r.Header "Content-Type" = "application/json" →
        ∃ q, scanInto r.Query [] = .ret q ∧ ∃ req,
          PlugRequest r = .ret (req, if (decodeParams r.Body q).2.isSome then some 500 else none)
            ∧ req.params = (decodeParams r.Body q).1) := by
  obtain ⟨q, hq, hget⟩ := scanInto_short r.Query hk hv []
  have hget' : ∀ k, Option.map Run.ret (mapGet q k) = Option.map scan (mapGet r.Query k) := by
    intro k
    rw [hget k]
    cases mapGet r.Query k <;> simp [mapGet]
  have hmp : stringsContains "multipart/form-data" "multipart/form-data" = true := by decide
  have hmj : stringsContains "application/json" "multipart/form-data" = false := by decide
  constructor
  · intro hm hct
    by_cases hG : r.Method = "GET"
    · have hct' := hct hG
      unfold PlugRequest
      simp only [hq, Run.bind, hG]
      generalize headerGet r.Header "Content-Type" = ct at *
      by_cases h1 : stringsContains ct "multipart/form-data" = true
      · simp only [h1, if_true]
        exact ⟨_, rfl, rfl, hget'⟩
      · by_cases h2 : ct = "multipart/form-data"
        · subst h2
          exact absurd hmp h1
        · simp only [h1, h2, hct', if_false, if_true, true_or, Bool.false_eq_true]
          split_ifs <;> exact ⟨_, rfl, rfl, hget'⟩
    · unfold PlugRequest
      simp only [hq, Run.bind, hG, hm.1, hm.2.1, hm.2.2.1, hm.2.2.2, or_self, if_false]
      exact ⟨_, rfl, rfl, hget'⟩
  · intro hG hct
    refine ⟨q, hq, ?_⟩
    unfold PlugRequest
    simp only [hq, Run.bind, hG, hct, hmj, if_false, if_true, true_or, Bool.false_eq_true]
    have e1 : ("application/json" = "multipart/form-data") = False := by decide
    have e2 : ("application/json" = "application/x-www-form-urlencoded") = False := by decide
    simp only [e1, e2, if_false, if_true]
    rcases hd : decodeParams r.Body q with ⟨params, e⟩
    cases e with
    | none => exact ⟨_, rfl, rfl⟩
    | some _ => exact ⟨_, rfl, rfl⟩

/-- Instance of the amended C3 at a GET request with a form body and at a GET request
with a JSON body. -/
theorem PlugRequest_query_only_witness :
    (∃ req, PlugRequest getFormRequest = .ret (req, none) ∧ req.files = []
        ∧ ∀ k, Option.map Run.ret (mapGet req.params k)
            = Option.map scan (mapGet getFormRequest.Query k))
      ∧ ∃ q, scanInto getJSONRequest.Query [] = .ret q ∧ ∃ req,
          PlugRequest getJSONRequest
              = .ret (req, if (decodeParams getJSONRequest.Body q).2.isSome then some 500 else none)
            ∧ req.params = (decodeParams getJSONRequest.Body q).1 :=
  ⟨(PlugRequest_query_only getFormRequest (by decide) (by decide)).1 (by decide) (by decide),
   (PlugRequest_query_only getJSONRequest (by decide) (by decide)).2 rfl rfl⟩

/-- The example `GET /?ids=[1,2,3]&name=Ann`: the stored parameters, `GetArray("ids")`
and `Get("name")`. -/
theorem PlugRequest_example_query (lib : Lib) :
    (PlugRequest getFormRequest).value?.map (fun p => (p.1.params, p.2))
        = some ([("ids", .list [.num "1", .num "2", .num "3"]), ("name", .str "Ann")], none)
      ∧ (PlugRequest getFormRequest).value?.map (fun p => (p.1.GetArray "ids", p.1.Get lib "name"))
        = some ([.num "1", .num "2", .num "3"], "Ann") :=
  ⟨rfl, rfl⟩

/-- C4 fails on the code: for `DELETE /?a=1` with content type
`application/x-www-form-urlencoded` and body `b=2` the store holds the query key `a`
only, the form key `b` is not in it, because `ParseForm` fills `PostForm` for POST, PUT
and PATCH only; the same request sent as POST stores `b`, and a DELETE request with a
JSON body stores the keys of its body. -/
theorem PlugRequest_delete_form_ignored :
    deleteFormRequest.Method = "DELETE" ∧ deleteFormRequest.FormBody = .ok [("b", ["2"])]
      ∧ (PlugRequest deleteFormRequest).value?.map (fun p => (p.1.params, p.2))
          = some ([("a", .str "1")], none)
      ∧ (PlugRequest deleteFormRequest).value?.map (fun p => mapGet p.1.params "b")
          = some none
      ∧ (PlugRequest { deleteFormRequest with Method := "POST" }).value?.map
            (fun p => (p.1.params, p.2))
          = some ([("a", .str "1"), ("b", .str "2")], none)
      ∧ (PlugRequest deleteJSONRequest).value?.map (fun p => (p.1.params, p.2))
          = some ([("a", .str "1"), ("b", .str "2")], none) :=
  ⟨rfl, rfl, rfl, rfl, rfl, rfl⟩

/-- Where the merge works (no query key and no form field repeated): a PUT, POST or
PATCH request with content type `application/x-www-form-urlencoded` whose form parses
gets a store whose keys are the query keys and the form keys, a form key mapped to
`scan` of its form values (also when the query has the key), a key of the query alone to
`scan` of its query values; a PUT, POST, DELETE or PATCH request with content type
`application/json` whose body starts with a JSON object the decoder accepts gets the
query keys and the object's keys, an object key mapped to its decoded value. -/
theorem PlugRequest_body_wins (r : HttpRequest)
    (hk : (mapKeys r.Query).Nodup) (hv : ∀ kv ∈ r.Query, kv.2.length ≤ 1) :
    ((r.Method = "PUT" ∨ r.Method = "POST" ∨ r.Method = "PATCH") →
      headerGet r.Header "Content-Type" = "application/x-www-form-urlencoded" →
      r.QueryErr = false →
      ∀ f, r.FormBody = .ok f → (mapKeys f).Nodup → (∀ kv ∈ f, kv.2.length ≤ 1) →
        ∃ req, PlugRequest r = .ret (req, none)
          ∧ ∀ k, Option.map Run.ret (mapGet req.params k)
              = (Option.map scan (mapGet f k) <|> Option.map scan (mapGet r.Query k)))
    ∧ ((r.Method = "PUT" ∨ r.Method = "POST" ∨ r.Method = "DELETE" ∨ r.Method = "PATCH") →
      headerGet r.Header "Content-Type" = "application/json" →
      ∀ kvs, decodeStream r.Body = some (.map kvs, false) →
        ∃ req, PlugRequest r = .ret (req, none)
          ∧ ∀ k, Option.map Run.ret (mapGet req.params k)
              = (Option.map Run.ret (mapGet kvs k) <|> Option.map scan (mapGet r.Query k))) := by
  obtain ⟨q, hq, hget⟩ := scanInto_short r.Query hk hv []
  have hget' : ∀ k, Option.map Run.ret (mapGet q k) = Option.map scan (mapGet r.Query k) := by
    intro k
    rw [hget k]
    cases mapGet r.Query k <;> simp [mapGet]
  have hmu : stringsContains "application/x-www-form-urlencoded" "multipart/form-data" = false := by
    decide
  have hmj : stringsContains "application/json" "multipart/form-data" = false := by decide
  have e1 : ("application/json" = "multipart/form-data") = False := by decide
  have e2 : ("application/json" = "application/x-www-form-urlencoded") = False := by decide
  have e3 : ("application/x-www-form-urlencoded" = "multipart/form-data") = False := by decide
  have hmeth : ∀ m : String, (m = "PUT" ∨ m = "POST" ∨ m = "DELETE" ∨ m = "PATCH") →
      (m = "GET" ∨ m = "PUT" ∨ m = "POST" ∨ m = "DELETE" ∨ m = "PATCH") ∧ m ≠ "GET" := by
    intro m h
    rcases h with h | h | h | h <;> subst h <;> decide
  refine ⟨?_, ?_⟩
  · intro hm hct hqe f hf hkf hvf
    obtain ⟨q2, hq2, hget2⟩ := scanInto_short f hkf hvf q
    have hm5 := hmeth r.Method (by tauto)
    have hm' : r.Method = "POST" ∨ r.Method = "PUT" ∨ r.Method = "PATCH" := by tauto
    have hpf : r.ParseForm = .ok f := by
      unfold HttpRequest.ParseForm
      rw [if_pos hm']
      simp only [hf, hqe, Bool.false_eq_true, if_false]
    unfold PlugRequest
    simp only [hq, Run.bind]
    rw [if_pos hm5.1]
    simp only [hct, hmu, hm5.2, hpf, hq2, e3, if_false, if_true, Bool.false_eq_true]
    refine ⟨_, rfl, ?_⟩
    intro k
    simp only
    rw [hget2 k]
    cases mapGet f k with
    | none => exact hget' k
    | some vs => rfl
  · intro hm hct kvs hd
    have hm5 := hmeth r.Method hm
    have hdp : decodeParams r.Body q = (kvs.foldl (fun p kv => mapSet p kv.1 kv.2) q, none) := by
      unfold decodeParams
      rw [hd]
    unfold PlugRequest
    simp only [hq, Run.bind]
    rw [if_pos hm5.1]
    simp only [hct, hmj, hdp, e1, e2, if_false, if_true, Bool.false_eq_true]
    refine ⟨_, rfl, ?_⟩
    intro k
    simp only
    have := mapGet_foldl_mapSet (fun v : Val => v) kvs (decodeStream_nodup r.Body kvs false hd) q k
    rw [this]
    cases mapGet kvs k with
    | none => exact hget' k
    | some v => rfl

/-- The merge at a form post and at a JSON post. -/
theorem PlugRequest_body_wins_examples :
    (∃ req, PlugRequest postFormRequest = .ret (req, none)
        ∧ ∀ k, Option.map Run.ret (mapGet req.params k)
            = (Option.map scan (mapGet [("id", ["7"]), ("tags", ["[\"a\",\"b\"]"])] k)
                <|> Option.map scan (mapGet postFormRequest.Query k)))
      ∧ ∃ req, PlugRequest postJSONRequest = .ret (req, none)
        ∧ ∀ k, Option.map Run.ret (mapGet req.params k)
            = (Option.map Run.ret
                  (mapGet [("id", .num "5"), ("tags", .list [.str "a", .str "b"])] k)
                <|> Option.map scan (mapGet postJSONRequest.Query k)) :=
  ⟨(PlugRequest_body_wins postFormRequest (by decide) (by decide)).1
      (by decide) (by decide) rfl _ rfl (by decide) (by decide),
   (PlugRequest_body_wins postJSONRequest (by decide) (by decide)).2
      (by decide) (by decide) _ rfl⟩

/-- The stored parameters of the two posts: the body value wins over the query value. -/
theorem PlugRequest_example_posts :
    (PlugRequest postFormRequest).value?.map (fun p => (p.1.params, p.2))
        = some ([("id", .str "7"), ("q", .str "x"), ("tags", .list [.str "a", .str "b"])], none)
      ∧ (PlugRequest postJSONRequest).value?.map (fun p => (p.1.params, p.2))
        = some ([("id", .num "5"), ("q", .str "x"), ("tags", .list [.str "a", .str "b"])], none) :=
  ⟨rfl, rfl⟩

/-! ## Numeric getters -/

/-- C5 fails on the code: the getters parse a stored string with bit size 32, so
`GetUint64` gives 4294967295 for `4294967296`, `GetInt64` gives 2147483647 for
`2147483648`, and a string beyond 64 bits gives 4294967295 instead of 0; `42` reads as
42 and an absent key as 0. -/
theorem GetUint64_GetInt64_parse_32_bits (lib : Lib) :
    (PlugRequest numbersRequest).value?.map (fun p =>
        (p.1.GetUint64 lib "n", p.1.GetInt64 lib "m", p.1.GetUint64 lib "big",
          p.1.GetUint64 lib "ok", p.1.GetInt64 lib "ok", p.1.GetUint64 lib "none",
          p.1.GetInt64 lib "none"))
      = some (4294967295, 2147483647, 4294967295, 42, 42, 0, 0) :=
  rfl

/-! ## Time getter -/

/-- C7 fails on the code: with a number stored under the key, `GetTime` and `GetTimeNE`
panic in the type assertion instead of returning an error or an absent result. -/
theorem GetTime_panics_on_number (lib : Lib) :
    (PlugRequest timeRequest).value?.map (fun p =>
        (mapGet p.1.params "t", p.1.GetTime lib "t", p.1.GetTimeNE lib "t"))
      = some (some (.num "5"), .panic "interface conversion: interface \x7b\x7d is not string",
          .panic "interface conversion: interface \x7b\x7d is not string") :=
  rfl

/-- What `GetTime` and `GetTimeNE` do on a string and on a missing or nil value: the
parsed time when the string has the RFC 3339 format, an error (an absent result for
`GetTimeNE`) otherwise; on any other stored value they panic. -/
theorem GetTime_cases (lib : Lib) (r : Request) (key : String) :
    (∀ s t, mapGet r.params key = some (.str s) → lib.parseRFC3339 s = some t →
        r.GetTime lib key = .ret (.ok t) ∧ r.GetTimeNE lib key = .ret (some t))
      ∧ (∀ s, mapGet r.params key = some (.str s) → lib.parseRFC3339 s = none →
        r.GetTime lib key = .ret (.error "use RFC3339 format string for datetime")
          ∧ r.GetTimeNE lib key = .ret none)
      ∧ ((mapGet r.params key = none ∨ mapGet r.params key = some .nil) →
        r.GetTime lib key = .ret (.error "no time specified")
          ∧ r.GetTimeNE lib key = .ret none)
      ∧ (∀ v, mapGet r.params key = some v → v ≠ .nil → (∀ s, v ≠ .str s) →
        (r.GetTime lib key).returns = false ∧ (r.GetTimeNE lib key).returns = false) := by
  refine ⟨?_, ?_, ?_, ?_⟩
  · intro s t h ht
    simp [Request.GetTimeNE, Request.GetTime, h, ht, Run.bind]
  · intro s h ht
    simp [Request.GetTimeNE, Request.GetTime, h, ht, Run.bind]
  · intro h
    rcases h with h | h <;> simp [Request.GetTimeNE, Request.GetTime, h, Run.bind]
  · intro v h hn hs
    cases v with
    | nil => exact absurd rfl hn
    | str s => exact absurd rfl (hs s)
    | num _ => simp [Request.GetTimeNE, Request.GetTime, h, Run.bind, Run.returns]
    | int _ => simp [Request.GetTimeNE, Request.GetTime, h, Run.bind, Run.returns]
    | bool _ => simp [Request.GetTimeNE, Request.GetTime, h, Run.bind, Run.returns]
    | list _ => simp [Request.GetTimeNE, Request.GetTime, h, Run.bind, Run.returns]
    | map _ => simp [Request.GetTimeNE, Request.GetTime, h, Run.bind, Run.returns]

/-! ## Header predicates -/

/-- C10 fails on the code: `hasHeader` looks the key up under `strings.Title(key)`, not
under its canonical form, so for `CONTENT-TYPE` and `x-API-key` the getter `Header`
returns the value while `HasHeader` and `HeaderFilled` are false, though both headers
exist; for `content-type` all three agree. -/
theorem HasHeader_misses_existing_header (lib : Lib) :
    (PlugRequest headersRequest).value?.map (fun p =>
        (p.1.Header "CONTENT-TYPE", p.1.HasHeader lib ["CONTENT-TYPE"],
          p.1.HeaderFilled lib ["CONTENT-TYPE"], p.1.Header "x-API-key",
          p.1.HasHeader lib ["x-API-key"], p.1.HeaderFilled lib ["x-API-key"]))
        = some ("text/plain", false, false, "k", false, false)
      ∧ (PlugRequest headersRequest).value?.map (fun p =>
        (p.1.Header "content-type", p.1.HasHeader lib ["content-type"],
          p.1.HeaderFilled lib ["content-type"]))
        = some ("text/plain", true, true) :=
  ⟨rfl, rfl⟩

/-! ## Presence predicates -/

theorem foldl_and_all (step : Bool → String → Bool) (g : String → Bool)
    (hstep : ∀ b k, step b k = (b && g k)) (init : Bool) (keys : List String) :
    keys.foldl step init = (init && keys.all g) := by
  induction keys generalizing init with
  | nil => simp
  | cons k t ih =>
    simp only [List.foldl_cons, List.all_cons]
    rw [ih, hstep, Bool.and_assoc]

theorem dropWhile_all (p : Char → Bool) (l : List Char) (h : ∀ c ∈ l, p c = true) :
    l.dropWhile p = [] := by
  induction l with
  | nil => rfl
  | cons c t ih =>
    have hc := h c (List.mem_cons_self _ _)
    simp only [List.dropWhile_cons, hc, if_true]
    exact ih (fun x hx => h x (List.mem_cons_of_mem _ hx))

/-- A string made of white space only trims to the empty string. -/
theorem trimSpace_blank (s : String) (h : ∀ c ∈ s.data, unicodeIsSpace c = true) :
    trimSpace s = "" := by
  unfold trimSpace
  rw [dropWhile_all _ _ h]
  rfl

/-- A string trims to the empty string exactly when it holds white space only. -/
theorem trimSpace_eq_empty_iff (s : String) :
    trimSpace s = "" ↔ ∀ c ∈ s.data, unicodeIsSpace c = true := by
  constructor
  · intro h
    by_contra hne
    push_neg at hne
    obtain ⟨c, hc, hcs⟩ := hne
    have h1 : s.data.dropWhile unicodeIsSpace ≠ [] := by
      intro h0
      exact hcs (List.dropWhile_eq_nil_iff.1 h0 c hc)
    obtain ⟨x, t, hx⟩ := List.exists_cons_of_ne_nil h1
    have hxs : unicodeIsSpace x ≠ true := by
      have := List.head_dropWhile_not unicodeIsSpace s.data h1
      simp only [hx, List.head_cons] at this
      simp [this]
    have h2 : (s.data.dropWhile unicodeIsSpace).reverse.dropWhile unicodeIsSpace ≠ [] := by
      intro h0
      have hmem : x ∈ (s.data.dropWhile unicodeIsSpace).reverse := by
        rw [hx]
        simp
      exact hxs (List.dropWhile_eq_nil_iff.1 h0 x hmem)
    have h3 := congrArg String.data h
    unfold trimSpace at h3
    simp only at h3
    exact h2 (List.reverse_eq_nil_iff.1 h3)
  · exact trimSpace_blank s

theorem Request.filledStep_eq (lib : Lib) (r : Request) (found : Bool) (key : String) :
    r.filledStep lib found key = (found && r.filledStep lib true key) := by
  unfold Request.filledStep
  cases found <;> cases mapGet r.params key with
  | none => simp
  | some v => cases v <;> simp [Request.has]

theorem Request.filledStep_true (lib : Lib) (r : Request) (key : String) :
    r.filledStep lib true key = true ↔
      ∃ v, mapGet r.params key = some v ∧ v ≠ .nil
        ∧ (∀ s, v = .str s → trimSpace s ≠ "") ∧ (∀ xs, v = .list xs → xs ≠ []) := by
  unfold Request.filledStep
  cases h : mapGet r.params key with
  | none => simp
  | some v =>
    cases v with
    | str s => simp [Request.has, Request.Get, h, Lib.sprintf]
    | list xs => simp [Request.has, h, List.length_pos]
    | nil => simp
    | num _ => simp [Request.has, h]
    | int _ => simp [Request.has, h]
    | bool _ => simp [Request.has, h]
    | map _ => simp [Request.has, h]

/-- C6: `Has keys` is true exactly when every named key exists in the store; `Filled keys`
is true exactly when every named key exists with a value that is not nil, that is not
empty after `strings.TrimSpace` when it is a string, and that is not empty when it is a
list; for a key holding a string of white space only `Filled` is false and `Has` is
true; and `Filled keys` implies `Has keys`. -/
theorem Has_Filled_spec (lib : Lib) (r : Request) (keys : List String) :
    (r.Has keys = true ↔ ∀ k ∈ keys, ∃ v, mapGet r.params k = some v)
      ∧ (r.Filled lib keys = true ↔ ∀ k ∈ keys, ∃ v, mapGet r.params k = some v ∧ v ≠ .nil
          ∧ (∀ s, v = .str s → trimSpace s ≠ "") ∧ (∀ xs, v = .list xs → xs ≠ []))
      ∧ (∀ k s, mapGet r.params k = some (.str s) → (∀ c ∈ s.data, unicodeIsSpace c = true) →
          r.Filled lib [k] = false ∧ r.Has [k] = true)
      ∧ (r.Filled lib keys = true → r.Has keys = true) := by
  have hHas : r.Has keys = true ↔ ∀ k ∈ keys, ∃ v, mapGet r.params k = some v := by
    unfold Request.Has
    rw [foldl_and_all _ r.has (fun _ _ => rfl)]
    simp only [Bool.true_and, List.all_eq_true]
    constructor
    · intro h k hk
      have := h k hk
      unfold Request.has at this
      cases hg : mapGet r.params k with
      | none => simp [hg] at this
      | some v => exact ⟨v, rfl⟩
    · intro h k hk
      obtain ⟨v, hv⟩ := h k hk
      simp [Request.has, hv]
  have hFilled : r.Filled lib keys = true ↔ ∀ k ∈ keys, ∃ v, mapGet r.params k = some v
      ∧ v ≠ .nil ∧ (∀ s, v = .str s → trimSpace s ≠ "") ∧ (∀ xs, v = .list xs → xs ≠ []) := by
    unfold Request.Filled
    rw [foldl_and_all _ (r.filledStep lib true) (r.filledStep_eq lib)]
    simp only [Bool.true_and, List.all_eq_true]
    constructor
    · intro h k hk
      exact (r.filledStep_true lib k).1 (h k hk)
    · intro h k hk
      exact (r.filledStep_true lib k).2 (h k hk)
  refine ⟨hHas, hFilled, ?_, ?_⟩
  · intro k s hk hs
    constructor
    · simp [Request.Filled, Request.filledStep, hk, Request.has, Request.Get, Lib.sprintf,
        trimSpace_blank s hs]
    · simp [Request.Has, Request.has, hk]
  · intro h
    rw [hHas]
    intro k hk
    obtain ⟨v, hv, _⟩ := hFilled.1 h k hk
    exact ⟨v, hv⟩

/-- Instance of C6 at a key holding a blank string. -/
theorem Has_Filled_spec_witness :
    blankStore.Filled plainLib ["blank"] = false ∧ blankStore.Has ["blank"] = true :=
  (Has_Filled_spec plainLib blankStore ["blank"]).2.2.1 "blank" " \t " rfl (by decide)

/-- The predicates on the store `blankStore`. -/
theorem Has_Filled_examples (lib : Lib) :
    blankStore.Has ["name", "blank", "ids"] = true ∧ blankStore.Has ["name", "age"] = false
      ∧ blankStore.Filled lib ["name"] = true ∧ blankStore.Filled lib ["ids"] = false
      ∧ blankStore.Filled lib ["name", "blank"] = false
      ∧ blankStore.Filled lib ["age"] = false :=
  ⟨rfl, rfl, rfl, rfl, rfl, rfl⟩

/-! ## Files -/

/-- C8: `scanFiles` stores a single file for one part, the list for more than one and
nil for none, and `PlugRequest` stores `scanFiles` of the parts under every multipart
file field; `GetFile` and `GetFiles` fail with `no such file` when the key has no entry
or a nil one, `GetFile` fails with `invalid file, maybe files instead` on a list, and
`GetFiles` fails with `invalid files, maybe file instead` on a single file. -/
theorem GetFile_GetFiles_spec :
    (∀ fh, scanFiles [fh] = .one fh)
      ∧ (∀ fhs : List FileHeader, 1 < fhs.length → scanFiles fhs = .many fhs)
      ∧ scanFiles [] = .nil
      ∧ (∀ (r : Request) (key : String),
          (mapGet r.files key = none ∨ mapGet r.files key = some .nil) →
            r.GetFile key = (none, some "no such file")
              ∧ r.GetFiles key = (none, some "no such file")
              ∧ r.HasFile [key] = false)
      ∧ (∀ (r : Request) (key : String) (fhs : List FileHeader),
          mapGet r.files key = some (.many fhs) →
            r.GetFile key = (none, some "invalid file, maybe files instead"))
      ∧ (∀ (r : Request) (key : String) (fh : FileHeader),
          mapGet r.files key = some (.one fh) →
            r.GetFiles key = (none, some "invalid files, maybe file instead"))
      ∧ (∀ (r : HttpRequest) (value : Values) (file : List (String × List FileHeader)),
          (r.Method = "PUT" ∨ r.Method = "POST" ∨ r.Method = "DELETE" ∨ r.Method = "PATCH") →
          stringsContains (headerGet r.Header "Content-Type") "multipart/form-data" = true →
          r.Multipart = .ok (value, file) →
          (mapKeys r.Query).Nodup → (∀ kv ∈ r.Query, kv.2.length ≤ 1) →
          (mapKeys value).Nodup → (∀ kv ∈ value, kv.2.length ≤ 1) →
          (mapKeys file).Nodup →
            ∃ req, PlugRequest r = .ret (req, none)
              ∧ ∀ k, mapGet req.files k = Option.map scanFiles (mapGet file k)) := by
  refine ⟨fun fh => by simp [scanFiles], ?_, rfl, ?_, ?_, ?_, ?_⟩
  · intro fhs h
    unfold scanFiles
    have h1 : ¬ fhs.length = 1 := by omega
    simp [h1, h]
  · intro r key h
    rcases h with h | h <;> simp [Request.GetFile, Request.GetFiles, Request.HasFile, h]
  · intro r key fhs h
    simp [Request.GetFile, h]
  · intro r key fh h
    simp [Request.GetFiles, h]
  · intro r value file hm hct hmp hk hv hkv hvv hkf
    obtain ⟨q, hq, _⟩ := scanInto_short r.Query hk hv []
    obtain ⟨q2, hq2, _⟩ := scanInto_short value hkv hvv q
    have hm5 : (r.Method = "GET" ∨ r.Method = "PUT" ∨ r.Method = "POST" ∨ r.Method = "DELETE"
        ∨ r.Method = "PATCH") ∧ r.Method ≠ "GET" := by
      rcases hm with h | h | h | h <;> rw [h] <;> decide
    unfold PlugRequest
    simp only [hq, Run.bind]
    rw [if_pos hm5.1]
    simp only [hct, hm5.2, hmp, hq2, if_false, if_true]
    refine ⟨_, rfl, ?_⟩
    intro k
    simp only [scanFilesInto]
    rw [mapGet_foldl_mapSet scanFiles file hkf [] k]
    cases mapGet file k <;> rfl

/-- Instance of C8 at the upload example. -/
theorem GetFile_GetFiles_spec_witness :
    uploadStore.GetFile "docs" = (none, some "invalid file, maybe files instead")
      ∧ uploadStore.GetFiles "avatar" = (none, some "invalid files, maybe file instead")
      ∧ (uploadStore.GetFile "none" = (none, some "no such file")
          ∧ uploadStore.GetFiles "none" = (none, some "no such file")
          ∧ uploadStore.HasFile ["none"] = false)
      ∧ ∃ req, PlugRequest uploadRequest = .ret (req, none)
          ∧ ∀ k, mapGet req.files k
              = Option.map scanFiles (mapGet
                  [("avatar", [{ Filename := "me.png", Size := 3, content := .ok "png" }]),
                   ("docs", [{ Filename := "a.txt", Size := 1, content := .ok "a" },
                             { Filename := "b.txt", Size := 1, content := .ok "b" }])] k) :=
  ⟨GetFile_GetFiles_spec.2.2.2.2.1 uploadStore "docs" _ rfl,
   GetFile_GetFiles_spec.2.2.2.2.2.1 uploadStore "avatar" _ rfl,
   GetFile_GetFiles_spec.2.2.2.1 uploadStore "none" (Or.inl rfl),
   GetFile_GetFiles_spec.2.2.2.2.2.2 uploadRequest _ _ (by decide) (by decide) rfl
     (by decide) (by decide) (by decide) (by decide) (by decide)⟩

/-- The adapter `PlugRequest` builds from the upload example, and its accessors. -/
theorem PlugRequest_example_upload :
    (PlugRequest uploadRequest).value?.map (fun p => (p.1.params, p.1.files, p.2))
        = some (uploadStore.params, uploadStore.files, none)
      ∧ uploadStore.GetFile "avatar"
        = (some { f := some "png", fh := { Filename := "me.png", Size := 3, content := .ok "png" } },
            none)
      ∧ (uploadStore.GetFiles "docs").2 = none
      ∧ uploadStore.HasFile ["avatar", "docs"] = true :=
  ⟨rfl, rfl, rfl, rfl⟩

/-! ## The response envelope -/

/-- C9, as stated, fails on the example `ReplySuccess("0000000","OK","done",nil)`: the
body written is the JSON text followed by a newline, not the JSON text alone. -/
theorem ReplySuccess_body_has_newline :
    ((PlugResponse Unit { header := [], status := none, body := "" }).ReplySuccess
        (fun _ => .ok "\x7b\x7d") "0000000" "OK" "done" none).1.w.body
      = "\x7b\"status\":1,\"status_number\":\"0000000\",\"status_code\":\"OK\",\"status_message\":\"done\",\"data\":null\x7d\n"
    ∧ ((PlugResponse Unit { header := [], status := none, body := "" }).ReplySuccess
        (fun _ => .ok "\x7b\x7d") "0000000" "OK" "done" none).1.w.body
      ≠ "\x7b\"status\":1,\"status_number\":\"0000000\",\"status_code\":\"OK\",\"status_message\":\"done\",\"data\":null\x7d" :=
  ⟨by decide, by decide⟩

/-- C9 (amended): `ReplySuccess` is `Reply` with status 1 and `ReplyFailed` is `Reply`
with status 0; `Reply` sets the five envelope fields to its arguments and the
`Content-Type` header to `application/json`; when the payload encodes, no error is
returned and the text written is the JSON object with the fields `status`,
`status_number`, `status_code`, `status_message`, `data` in that order followed by one
newline; for a nil payload and `ReplySuccess` that is
`{"status":1,"status_number":N,"status_code":C,"status_message":M,"data":null}` and a
newline, with `N`, `C`, `M` the JSON-quoted strings. -/
theorem Reply_envelope {δ : Type} (marshal : δ → Except String String) (r : Response δ)
    (number code message : String) (data : Option δ) :
    r.ReplySuccess marshal number code message data = r.Reply marshal 1 number code message data
      ∧ r.ReplyFailed marshal number code message data
          = r.Reply marshal 0 number code message data
      ∧ (∀ status : Int,
          (r.Reply marshal status number code message data).1.Status = status
            ∧ (r.Reply marshal status number code message data).1.StatusNumber = number
            ∧ (r.Reply marshal status number code message data).1.StatusCode = code
            ∧ (r.Reply marshal status number code message data).1.StatusMessage = message
            ∧ (r.Reply marshal status number code message data).1.Data = data
            ∧ mapGet (r.Reply marshal status number code message data).1.w.header "Content-Type"
                = some ["application/json"])
      ∧ (∀ (status : Int) (text : String), marshalData marshal data = .ok text →
          (r.Reply marshal status number code message data).2 = none
            ∧ (r.Reply marshal status number code message data).1.w.body
                = r.w.body ++ ("\x7b\"status\":" ++ itoa status
                    ++ ",\"status_number\":" ++ quoteString number
                    ++ ",\"status_code\":" ++ quoteString code
                    ++ ",\"status_message\":" ++ quoteString message
                    ++ ",\"data\":" ++ text ++ "\x7d") ++ "\n")
      ∧ (r.ReplySuccess marshal number code message none).1.w.body
          = r.w.body ++ ("\x7b\"status\":1,\"status_number\":" ++ quoteString number
              ++ ",\"status_code\":" ++ quoteString code
              ++ ",\"status_message\":" ++ quoteString message
              ++ ",\"data\":null\x7d") ++ "\n" := by
  refine ⟨rfl, rfl, ?_, ?_, ?_⟩
  · intro status
    unfold Response.Reply Response.encode
    simp only
    split <;> simp [mapGet_mapSet]
  · intro status text h
    unfold Response.Reply Response.encode Response.marshal
    simp only [h]
    constructor <;> trivial
  · unfold Response.ReplySuccess Response.Reply Response.encode Response.marshal
    simp only [marshalData]
    have h1 : itoa 1 = "1" := by decide
    rw [h1]
    simp only [String.append_assoc]
    rfl

/-- Instance of the amended C9 at `Reply(0,"4040000","NF","missing",{})`. -/
theorem Reply_envelope_witness :
    ((PlugResponse Unit { header := [], status := none, body := "" }).Reply
        (fun _ => .ok "\x7b\x7d") 0 "4040000" "NF" "missing" (some ())).2 = none
      ∧ ((PlugResponse Unit { header := [], status := none, body := "" }).Reply
        (fun _ => .ok "\x7b\x7d") 0 "4040000" "NF" "missing" (some ())).1.w.body
        = "\x7b\"status\":0,\"status_number\":\"4040000\",\"status_code\":\"NF\",\"status_message\":\"missing\",\"data\":\x7b\x7d\x7d\n" :=
  (Reply_envelope (fun _ => .ok "\x7b\x7d") (PlugResponse Unit { header := [], status := none, body := "" })
    "4040000" "NF" "missing" (some ())).2.2.2.1 0 "\x7b\x7d" rfl

/-- How strings are quoted in the envelope. -/
theorem quoteString_examples :
    quoteString "done" = "\"done\"" ∧ quoteString "a\"b\\c" = "\"a\\\"b\\\\c\""
      ∧ quoteString "x<y>&\n" = "\"x\\u003cy\\u003e\\u0026\\n\"" :=
  ⟨by decide, by decide, by decide⟩

end Jumper
